import Mathlib

/-!
Verification of the Real-Time data processor core against its specification.

The development shallowly embeds the four core components:

* `RateLimiter` — the token-bucket admission limiter
  (backend/middleware/rateLimiter.js).  Time is `Nat` milliseconds, token
  counts are `Int` (JavaScript numbers can go negative via
  `maxRequests - 1`), and the floating-point expression
  `Math.floor((timePassed / windowMs) * maxRequests)` is embedded as exact
  natural division `timePassed * maxRequests / windowMs`.
* `DataGenerator` — the producer/batcher and WebSocket fan-out
  (backend/services/dataGenerator.js).  `Math.random()` draws are explicit
  rational parameters in `[0, 1)`; the database write in `processBuffer`
  is a boolean `persistOk` parameter (`DataRecord.createBatch` succeeding
  or throwing); broadcast invocation is returned as an `Option` value.
* `WSClient` — the reconnect state machine of the client hook
  (frontend/src/hooks/useWebSocket.js), driven by discrete
  open/close/timer events.
* `DataBuffer` — the client-side bounded batched store
  (frontend/src/hooks/useDataBuffer.js): the reducer plus the pending
  batch / commit-timeout machinery of the hook.
-/

namespace RateLimiter

/-- Limiter configuration: `windowMs` and `maxRequests` from the
`RateLimiter` constructor options. -/
structure Config where
  windowMs : Nat
  maxRequests : Nat
deriving DecidableEq

/-- One per-key bucket: `{ tokens, lastRefill, firstRequest }` as created by
`consume`.  Tokens are `Int` because the source computes
`this.maxRequests - 1`, which is negative when `maxRequests = 0`. -/
structure Bucket where
  tokens : Int
  lastRefill : Nat
  firstRequest : Nat
deriving DecidableEq

/-- Result object of `consume`: `{ allowed, remaining, resetTime? }`. -/
structure ConsumeResult where
  allowed : Bool
  remaining : Int
  resetTime : Option Nat
deriving DecidableEq

/-- `Math.floor((timePassed / windowMs) * maxRequests)` from
`refillTokens`, as exact integer arithmetic. -/
def tokensToAdd (cfg : Config) (now : Nat) (b : Bucket) : Nat :=
  (now - b.lastRefill) * cfg.maxRequests / cfg.windowMs

/-- `RateLimiter.refillTokens`: add the elapsed-time refill, capped at
`maxRequests`, advancing `lastRefill` only when the increment is
positive. -/
def refillTokens (cfg : Config) (now : Nat) (b : Bucket) : Bucket :=
  if 0 < tokensToAdd cfg now b then
    { b with
        tokens := min (cfg.maxRequests : Int) (b.tokens + (tokensToAdd cfg now b : Int)),
        lastRefill := now }
  else b

/-- `RateLimiter.consume` for a single key: the bucket map entry for that
key is the `Option Bucket` state (`none` = key never seen). -/
def consume (cfg : Config) (now : Nat) (st : Option Bucket) :
    Option Bucket × ConsumeResult :=
  match st with
  | none =>
    let bucket : Bucket :=
      { tokens := (cfg.maxRequests : Int) - 1, lastRefill := now, firstRequest := now }
    (some bucket, { allowed := true, remaining := bucket.tokens, resetTime := none })
  | some b0 =>
    let b := refillTokens cfg now b0
    if 0 < b.tokens then
      (some { b with tokens := b.tokens - 1 },
        { allowed := true, remaining := b.tokens - 1, resetTime := none })
    else
      (some b,
        { allowed := false, remaining := 0,
          resetTime := some (b.lastRefill + cfg.windowMs) })

/-- A sequence of `consume` calls for one key at the given timestamps,
threading the bucket state and collecting the results. -/
def consumeSeq (cfg : Config) : Option Bucket → List Nat →
    Option Bucket × List ConsumeResult
  | st, [] => (st, [])
  | st, t :: ts =>
    let r := consume cfg t st
    let rest := consumeSeq cfg r.1 ts
    (rest.1, r.2 :: rest.2)

/-- Number of allowed results in a list of consume results. -/
def allowedCount (rs : List ConsumeResult) : Nat :=
  (rs.filter (fun r => r.allowed)).length

/-- `RateLimiter.cleanup` on a single bucket entry: the entry is removed
when `now - bucket.lastRefill > 2 * windowMs`. -/
def cleanupBucket (cfg : Config) (now : Nat) (b : Bucket) : Option Bucket :=
  if 2 * cfg.windowMs < now - b.lastRefill then none else some b

end RateLimiter

namespace DataGenerator

/-- The fixed five-element category enumeration of `this.categories`. -/
inductive Category
  | sensor
  | metric
  | event
  | alert
  | system
deriving DecidableEq

/-- `this.categories = ['sensor', 'metric', 'event', 'alert', 'system']`. -/
def categories : List Category :=
  [Category.sensor, Category.metric, Category.event, Category.alert, Category.system]

/-- A generated record: `{ timestamp, value, category, metadata }` with
`metadata = { source, batch }`.  Values are exact rationals. -/
structure Record where
  timestamp : Nat
  value : ℚ
  category : Category
  metaSource : Nat
  metaBatch : Nat
deriving DecidableEq

/-- JavaScript `Math.round` on the non-negative values used here:
round half up. -/
def jsRound (x : ℚ) : ℤ := ⌊x + 1 / 2⌋

/-- `Math.round(value * 100) / 100`: round to two decimal places. -/
def round2 (v : ℚ) : ℚ := ((jsRound (v * 100) : ℤ) : ℚ) / 100

/-- The category-dependent raw value of `generateRecord`; `r` is the
`Math.random()` draw in `[0, 1)`. -/
def rawValue (c : Category) (r : ℚ) : ℚ :=
  match c with
  | Category.sensor => 20 + r * 60
  | Category.metric => r * 1000
  | Category.event => ((⌊r * 100⌋ : ℤ) : ℚ)
  | Category.alert => r * 10
  | Category.system => 50 + r * 50

/-- `this.categories[Math.floor(Math.random() * this.categories.length)]`. -/
def pickCategory (r : ℚ) : Category :=
  categories.getD (⌊r * 5⌋).toNat Category.sensor

/-- `DataGenerator.generateRecord`, with the three `Math.random()` draws
(category pick, value, metadata source) as explicit parameters. -/
def generateRecord (now totalGenerated batchSize : Nat) (rcat rval rsrc : ℚ) : Record :=
  let category := pickCategory rcat
  { timestamp := now
    value := round2 (rawValue category rval)
    category := category
    metaSource := (⌊rsrc * 5⌋).toNat
    metaBatch := totalGenerated / batchSize }

/-- A WebSocket client handle in `this.wsClients`: its `readyState`
(1 = OPEN) and whether `client.send` succeeds or throws. -/
structure Client where
  id : Nat
  readyState : Nat
  sendOk : Bool
deriving DecidableEq

/-- `DataGenerator.broadcast` over the client set (in iteration order):
returns the surviving client set and the ids the message was sent to.
An open client whose `send` throws is deleted inside the `catch`;
a client whose `readyState` is not 1 is skipped by the `if`. -/
def broadcastClients : List Client → List Client × List Nat
  | [] => ([], [])
  | c :: cs =>
    let rest := broadcastClients cs
    if c.readyState = 1 then
      if c.sendOk then (c :: rest.1, c.id :: rest.2) else (rest.1, rest.2)
    else (c :: rest.1, rest.2)

/-- The `{ type: 'batch', data, total }` message handed to `broadcast`. -/
structure BatchMsg where
  data : List Record
  total : Nat
deriving DecidableEq

/-- The mutable state of a `DataGenerator` instance. -/
structure GenState where
  rate : ℚ
  batchSize : Nat
  isRunning : Bool
  intervalMs : Option ℚ
  buffer : List Record
  totalGenerated : Nat
  wsClients : List Client
deriving DecidableEq

/-- `DataGenerator.processBuffer`: snapshot and clear the buffer, then
`await DataRecord.createBatch` (outcome `persistOk`); only on success does
control reach the `broadcast` call (returned as `some` message); a
persistence error jumps to the `catch`, which only logs. -/
def processBuffer (persistOk : Bool) (s : GenState) : GenState × Option BatchMsg :=
  if s.buffer.isEmpty then (s, none)
  else
    let records := s.buffer
    let s1 := { s with buffer := [] }
    if persistOk then
      ({ s1 with wsClients := (broadcastClients s1.wsClients).1 },
        some { data := records, total := s1.totalGenerated })
    else (s1, none)

/-- One firing of the `setInterval` callback installed by `start`:
generate a record, push it, increment `totalGenerated`, and call
`processBuffer` when the buffer length reaches `batchSize`.  The middle
component is the buffer snapshot handed to `processBuffer` (`none` when no
flush was triggered); the last is the broadcast message, if any. -/
def tick (persistOk : Bool) (now : Nat) (rcat rval rsrc : ℚ) (s : GenState) :
    GenState × Option (List Record) × Option BatchMsg :=
  let record := generateRecord now s.totalGenerated s.batchSize rcat rval rsrc
  let s1 := { s with buffer := s.buffer ++ [record], totalGenerated := s.totalGenerated + 1 }
  if s.batchSize ≤ s1.buffer.length then
    let pb := processBuffer persistOk s1
    (pb.1, some s1.buffer, pb.2)
  else (s1, none, none)

/-- `DataGenerator.start`: no-op when already running, else set the
interval to `1000 / rate` milliseconds. -/
def start (s : GenState) : GenState :=
  if s.isRunning then s
  else { s with isRunning := true, intervalMs := some (1000 / s.rate) }

/-- `DataGenerator.stop`: no-op when not running, else clear the interval
and flush any non-empty remainder through `processBuffer`. -/
def stop (persistOk : Bool) (s : GenState) :
    GenState × Option (List Record) × Option BatchMsg :=
  if !s.isRunning then (s, none, none)
  else
    let s1 := { s with isRunning := false, intervalMs := none }
    if s1.buffer.isEmpty then (s1, none, none)
    else
      let pb := processBuffer persistOk s1
      (pb.1, some s1.buffer, pb.2)

/-- `DataGenerator.setRate`: stop when running, set the new rate, restart
when it was running. -/
def setRate (persistOk : Bool) (newRate : ℚ) (s : GenState) :
    GenState × Option (List Record) × Option BatchMsg :=
  let stopped := if s.isRunning then stop persistOk s else (s, none, none)
  let s2 := { stopped.1 with rate := newRate }
  (if s.isRunning then start s2 else s2, stopped.2)

/-- A concrete running generator state used to instantiate theorems. -/
def genEx : GenState :=
  { rate := 50
    batchSize := 10
    isRunning := true
    intervalMs := some 20
    buffer := [{ timestamp := 0, value := 20, category := Category.sensor,
                 metaSource := 0, metaBatch := 0 }]
    totalGenerated := 7
    wsClients := [{ id := 1, readyState := 1, sendOk := true }] }

end DataGenerator

namespace WSClient

/-- `MAX_RECONNECT_ATTEMPTS` from useWebSocket.js. -/
def MAX_RECONNECT_ATTEMPTS : Nat := 10

/-- `RECONNECT_DELAY` (milliseconds) from useWebSocket.js. -/
def RECONNECT_DELAY : Nat := 3000

/-- `HEARTBEAT_INTERVAL` (milliseconds) from useWebSocket.js. -/
def HEARTBEAT_INTERVAL : Nat := 30000

/-- The values taken by `connectionStatus` in useWebSocket.js. -/
inductive ConnStatus
  | disconnected
  | connecting
  | connected
  | reconnecting
  | failed
  | errored
deriving DecidableEq

/-- The client hook state: `connectionStatus`, `isConnected`,
`reconnectAttemptsRef`, whether `reconnectTimeoutRef` holds a pending
timer and whether `heartbeatIntervalRef` holds a running interval. -/
structure WSClientState where
  status : ConnStatus
  isConnected : Bool
  attempts : Nat
  reconnectTimer : Bool
  heartbeat : Bool
deriving DecidableEq

/-- `connect()`: early-returns when the socket is already OPEN, else sets
status to `connecting` and installs the handlers. -/
def connectCall (wsOpen : Bool) (s : WSClientState) : WSClientState :=
  if wsOpen then s else { s with status := ConnStatus.connecting }

/-- The `ws.onopen` handler: connected, reset attempts, start heartbeat. -/
def onOpen (s : WSClientState) : WSClientState :=
  { s with isConnected := true, status := ConnStatus.connected,
           attempts := 0, heartbeat := true }

/-- The `ws.onclose` handler: mark disconnected, clear the heartbeat, then
either schedule a reconnect (when `attempts < MAX_RECONNECT_ATTEMPTS`,
incrementing the counter and entering `reconnecting`) or enter `failed`. -/
def onClose (s : WSClientState) : WSClientState :=
  let s1 := { s with isConnected := false, status := ConnStatus.disconnected,
                     heartbeat := false }
  if s1.attempts < MAX_RECONNECT_ATTEMPTS then
    { s1 with attempts := s1.attempts + 1, status := ConnStatus.reconnecting,
              reconnectTimer := true }
  else
    { s1 with status := ConnStatus.failed }

/-- The reconnect timeout firing: consume the timer and call `connect()`
(the socket is not open, the previous connection just closed). -/
def reconnectTimerFire (s : WSClientState) : WSClientState :=
  if s.reconnectTimer then connectCall false { s with reconnectTimer := false }
  else s

/-- The hook's initial state before the mount-time `connect()`. -/
def initialWSState : WSClientState :=
  { status := ConnStatus.disconnected, isConnected := false, attempts := 0,
    reconnectTimer := false, heartbeat := false }

/-- One failed connection cycle: the connection closes, then the scheduled
reconnect timer fires and calls `connect()` again. -/
def closeCycle (s : WSClientState) : WSClientState :=
  reconnectTimerFire (onClose s)

/-- Events that can reach the state machine while no connection opens. -/
inductive WSEvent
  | closeEvt
  | timerEvt

/-- Apply a sequence of close/timer events. -/
def applyWSEvents : WSClientState → List WSEvent → WSClientState
  | s, [] => s
  | s, WSEvent.closeEvt :: t => applyWSEvents (onClose s) t
  | s, WSEvent.timerEvt :: t => applyWSEvents (reconnectTimerFire s) t

end WSClient

namespace DataBuffer

/-- `MAX_BUFFER_SIZE` from useDataBuffer.js. -/
def MAX_BUFFER_SIZE : Nat := 5000

/-- `BATCH_UPDATE_INTERVAL` (milliseconds) from useDataBuffer.js. -/
def BATCH_UPDATE_INTERVAL : Nat := 100

/-- The reducer state of useDataBuffer.js: `records`, `total`, `stats`,
`lastUpdate`, `filter`.  Record, stats and filter payloads are type
parameters. -/
structure BufferState (α σ φ : Type) where
  records : List α
  total : Nat
  stats : Option σ
  lastUpdate : Nat
  filter : Option φ
deriving DecidableEq

/-- The reducer actions of `dataBufferReducer`. -/
inductive BufferAction (α σ φ : Type)
  | addBatch (payload : List α)
  | updateStats (payload : σ)
  | clear
  | setFilter (payload : Option φ)

/-- `dataBufferReducer`.  `ADD_BATCH` appends the payload and keeps only
the most recent `MAX_BUFFER_SIZE` records (`combined.slice(-MAX)` when the
combined length exceeds the cap); `CLEAR` rebuilds the state from scratch
(the object literal carries no `filter` key, i.e. it becomes null-ish).
`now` stands for the `Date.now()` read in the reducer. -/
def dataBufferReducer {α σ φ : Type} (now : Nat) (state : BufferState α σ φ) :
    BufferAction α σ φ → BufferState α σ φ
  | BufferAction.addBatch payload =>
    let combined := state.records ++ payload
    let records :=
      if MAX_BUFFER_SIZE < combined.length then
        combined.drop (combined.length - MAX_BUFFER_SIZE)
      else combined
    { state with records := records, total := state.total + payload.length,
                 lastUpdate := now }
  | BufferAction.updateStats payload => { state with stats := some payload }
  | BufferAction.clear =>
    { records := [], total := 0, stats := none, lastUpdate := now, filter := none }
  | BufferAction.setFilter payload => { state with filter := payload }

/-- `initialState` of the reducer (`lastUpdate` is the mount-time
`Date.now()`). -/
def initialBufferState {α σ φ : Type} (now : Nat) : BufferState α σ φ :=
  { records := [], total := 0, stats := none, lastUpdate := now, filter := none }

/-- The full hook state: reducer state plus `pendingBatchRef` and whether
`batchTimeoutRef` holds a scheduled commit. -/
structure HookState (α σ φ : Type) where
  state : BufferState α σ φ
  pendingBatch : List α
  batchTimeout : Bool
deriving DecidableEq

/-- `addRecords`: push the incoming records onto the pending batch, clear
any existing commit timeout and schedule a new one. -/
def addRecords {α σ φ : Type} (recordsArray : List α) (h : HookState α σ φ) :
    HookState α σ φ :=
  { h with pendingBatch := h.pendingBatch ++ recordsArray, batchTimeout := true }

/-- The batch-commit timeout firing: when a timer is pending and the
pending batch is non-empty, dispatch `ADD_BATCH` with it and clear it. -/
def batchTimeoutFire {α σ φ : Type} (now : Nat) (h : HookState α σ φ) :
    HookState α σ φ :=
  if h.batchTimeout then
    if h.pendingBatch.isEmpty then { h with batchTimeout := false }
    else
      { state := dataBufferReducer now h.state (BufferAction.addBatch h.pendingBatch)
        pendingBatch := []
        batchTimeout := false }
  else h

/-- `clearData`: drop the pending batch, cancel any scheduled commit and
dispatch `CLEAR`. -/
def clearData {α σ φ : Type} (now : Nat) (h : HookState α σ φ) : HookState α σ φ :=
  { state := dataBufferReducer now h.state BufferAction.clear
    pendingBatch := []
    batchTimeout := false }

/-- Client-side ingestion trace operations: an `addRecords` call or a
batch-commit timeout firing. -/
inductive BufferOp (α : Type)
  | add (records : List α)
  | fire

/-- All records ingested by the `add` operations of a trace, in order. -/
def ingestedOf {α : Type} : List (BufferOp α) → List α
  | [] => []
  | BufferOp.add rs :: t => rs ++ ingestedOf t
  | BufferOp.fire :: t => ingestedOf t

/-- Run a trace of hook operations. -/
def runOps {α σ φ : Type} (now : Nat) : HookState α σ φ → List (BufferOp α) →
    HookState α σ φ
  | h, [] => h
  | h, BufferOp.add rs :: t => runOps now (addRecords rs h) t
  | h, BufferOp.fire :: t => runOps now (batchTimeoutFire now h) t

/-- The hook state on mount: initial reducer state, empty pending batch,
no commit scheduled. -/
def initialHook {α σ φ : Type} (lastUpdate : Nat) : HookState α σ φ :=
  { state := initialBufferState lastUpdate, pendingBatch := [], batchTimeout := false }

/-- The hook state after running a trace from the initial state and then
letting the final scheduled commit fire. -/
def finalAfter {α σ φ : Type} (now lastUpdate : Nat) (ops : List (BufferOp α)) :
    HookState α σ φ :=
  runOps now (initialHook lastUpdate) (ops ++ [BufferOp.fire])

end DataBuffer

namespace RateLimiter

/-- A refill at the bucket's own `lastRefill` instant adds nothing (zero
elapsed time) and leaves the bucket unchanged. -/
lemma refill_same_time (cfg : Config) (t : Nat) (b : Bucket) (hb : b.lastRefill = t) :
    refillTokens cfg t b = b := by
  simp [refillTokens, tokensToAdd, hb]

/-- Unfolding `allowedCount` over a cons cell. -/
lemma allowedCount_cons (r : ConsumeResult) (rs : List ConsumeResult) :
    allowedCount (r :: rs) = (if r.allowed then 1 else 0) + allowedCount rs := by
  cases hr : r.allowed <;> simp [allowedCount, List.filter_cons, hr, Nat.add_comm]

/-- At a fixed timestamp no refill ever fires, so the number of allowed
calls is bounded by the current token count. -/
lemma consumeSeq_same_time_le (cfg : Config) (t : Nat) :
    ∀ (k : Nat) (b : Bucket), b.lastRefill = t →
      allowedCount (consumeSeq cfg (some b) (List.replicate k t)).2 ≤ b.tokens.toNat := by
  intro k
  induction k with
  | zero => intro b hb; simp [consumeSeq, allowedCount]
  | succ k ih =>
    intro b hb
    by_cases htok : 0 < b.tokens
    · have hc : consume cfg t (some b) =
          (some { b with tokens := b.tokens - 1 },
            { allowed := true, remaining := b.tokens - 1, resetTime := none }) := by
        simp [consume, refill_same_time cfg t b hb, htok]
      have hrest : allowedCount (consumeSeq cfg
          (some { b with tokens := b.tokens - 1 }) (List.replicate k t)).2
          ≤ (b.tokens - 1).toNat := ih { b with tokens := b.tokens - 1 } hb
      simp only [List.replicate_succ, consumeSeq, hc, allowedCount_cons]
      simp
      omega
    · have hc : consume cfg t (some b) =
          (some b,
            { allowed := false, remaining := 0,
              resetTime := some (b.lastRefill + cfg.windowMs) }) := by
        simp [consume, refill_same_time cfg t b hb, htok]
      have hrest := ih b hb
      simp only [List.replicate_succ, consumeSeq, hc, allowedCount_cons]
      simp
      omega

end RateLimiter

namespace DataGenerator

/-- Rounding to two decimals never drops below an integer lower bound. -/
lemma le_round2 {n : ℤ} {v : ℚ} (h : (n : ℚ) ≤ v) : (n : ℚ) ≤ round2 v := by
  unfold round2 jsRound
  rw [le_div_iff₀ (by norm_num : (0 : ℚ) < 100)]
  have h2 : (n * 100 : ℤ) ≤ ⌊v * 100 + 1 / 2⌋ := by
    apply Int.le_floor.mpr
    push_cast
    linarith
  calc (n : ℚ) * 100 = ((n * 100 : ℤ) : ℚ) := by push_cast; ring
    _ ≤ (⌊v * 100 + 1 / 2⌋ : ℚ) := by exact_mod_cast h2

/-- Rounding to two decimals never exceeds an integer upper bound. -/
lemma round2_le {n : ℤ} {v : ℚ} (h : v ≤ (n : ℚ)) : round2 v ≤ (n : ℚ) := by
  unfold round2 jsRound
  rw [div_le_iff₀ (by norm_num : (0 : ℚ) < 100)]
  have h2 : ⌊v * 100 + 1 / 2⌋ ≤ n * 100 := by
    have h3 : ⌊v * 100 + 1 / 2⌋ < n * 100 + 1 := by
      apply Int.floor_lt.mpr
      push_cast
      linarith
    omega
  calc (⌊v * 100 + 1 / 2⌋ : ℚ) ≤ ((n * 100 : ℤ) : ℚ) := by exact_mod_cast h2
    _ = (n : ℚ) * 100 := by push_cast; ring

/-- Rounding an integer value to two decimals is the identity. -/
lemma round2_intCast (k : ℤ) : round2 ((k : ℚ)) = (k : ℚ) := by
  unfold round2 jsRound
  have hfl : ⌊(k : ℚ) * 100 + 1 / 2⌋ = k * 100 := by
    rw [Int.floor_eq_iff]
    constructor
    · push_cast; linarith
    · push_cast; linarith
  rw [hfl]
  push_cast
  field_simp

/-- Every category value belongs to the fixed enumeration list. -/
lemma mem_categories (c : Category) : c ∈ categories := by
  cases c <;> simp [categories]

/-- Per-category bounds of the rounded raw value, for a random draw in
`[0, 1)`. -/
lemma round2_rawValue_cases (c : Category) {r : ℚ} (h0 : 0 ≤ r) (h1 : r < 1) :
    ((0 : ℚ) ≤ round2 (rawValue c r) ∧ round2 (rawValue c r) ≤ 1000) ∧
    (c = Category.sensor →
      (20 : ℚ) ≤ round2 (rawValue c r) ∧ round2 (rawValue c r) ≤ 80) ∧
    (c = Category.metric →
      (0 : ℚ) ≤ round2 (rawValue c r) ∧ round2 (rawValue c r) ≤ 1000) ∧
    (c = Category.event →
      ∃ k : ℤ, round2 (rawValue c r) = (k : ℚ) ∧ 0 ≤ k ∧ k ≤ 99) ∧
    (c = Category.alert →
      (0 : ℚ) ≤ round2 (rawValue c r) ∧ round2 (rawValue c r) ≤ 10) ∧
    (c = Category.system →
      (50 : ℚ) ≤ round2 (rawValue c r) ∧ round2 (rawValue c r) ≤ 100) := by
  cases c with
  | sensor =>
    have hA : ((20 : ℤ) : ℚ) ≤ round2 (rawValue Category.sensor r) :=
      le_round2 (by simp only [rawValue]; push_cast; linarith)
    have hB : round2 (rawValue Category.sensor r) ≤ ((80 : ℤ) : ℚ) :=
      round2_le (by simp only [rawValue]; push_cast; linarith)
    push_cast at hA hB
    exact ⟨⟨by linarith, by linarith⟩, fun _ => ⟨hA, hB⟩, by simp, by simp, by simp, by simp⟩
  | metric =>
    have hA : ((0 : ℤ) : ℚ) ≤ round2 (rawValue Category.metric r) :=
      le_round2 (by simp only [rawValue]; push_cast; nlinarith)
    have hB : round2 (rawValue Category.metric r) ≤ ((1000 : ℤ) : ℚ) :=
      round2_le (by simp only [rawValue]; push_cast; nlinarith)
    push_cast at hA hB
    exact ⟨⟨hA, hB⟩, by simp, fun _ => ⟨hA, hB⟩, by simp, by simp, by simp⟩
  | event =>
    have hk0 : 0 ≤ ⌊r * 100⌋ := Int.floor_nonneg.mpr (by nlinarith)
    have hk1 : ⌊r * 100⌋ < 100 := Int.floor_lt.mpr (by push_cast; nlinarith)
    have hE : round2 (rawValue Category.event r) = ((⌊r * 100⌋ : ℤ) : ℚ) := by
      simp only [rawValue]
      exact round2_intCast _
    refine ⟨⟨?_, ?_⟩, by simp, by simp,
      fun _ => ⟨⌊r * 100⌋, hE, hk0, by omega⟩, by simp, by simp⟩
    · rw [hE]; exact_mod_cast hk0
    · rw [hE]
      have hc : ((⌊r * 100⌋ : ℤ) : ℚ) ≤ ((100 : ℤ) : ℚ) := by
        exact_mod_cast le_of_lt hk1
      push_cast at hc
      linarith
  | alert =>
    have hA : ((0 : ℤ) : ℚ) ≤ round2 (rawValue Category.alert r) :=
      le_round2 (by simp only [rawValue]; push_cast; nlinarith)
    have hB : round2 (rawValue Category.alert r) ≤ ((10 : ℤ) : ℚ) :=
      round2_le (by simp only [rawValue]; push_cast; nlinarith)
    push_cast at hA hB
    exact ⟨⟨hA, by linarith⟩, by simp, by simp, by simp, fun _ => ⟨hA, hB⟩, by simp⟩
  | system =>
    have hA : ((50 : ℤ) : ℚ) ≤ round2 (rawValue Category.system r) :=
      le_round2 (by simp only [rawValue]; push_cast; linarith)
    have hB : round2 (rawValue Category.system r) ≤ ((100 : ℤ) : ℚ) :=
      round2_le (by simp only [rawValue]; push_cast; linarith)
    push_cast at hA hB
    exact ⟨⟨by linarith, by linarith⟩, by simp, by simp, by simp, by simp, fun _ => ⟨hA, hB⟩⟩

end DataGenerator

namespace DataBuffer

/-- Taking `n` from an append where the right side was already truncated
to `n` is the same as taking `n` from the full append. -/
lemma take_append_take {α : Type} (n : Nat) (a b : List α) :
    (a ++ b.take n).take n = (a ++ b).take n := by
  rw [List.take_append_eq_append_take, List.take_append_eq_append_take, List.take_take,
    Nat.min_eq_left (Nat.sub_le n a.length)]

/-- Keeping the last `n` elements absorbs an earlier truncation to the
last `n` elements. -/
lemma rtake_append_rtake {α : Type} (n : Nat) (l m : List α) :
    (l.rtake n ++ m).rtake n = (l ++ m).rtake n := by
  have h1 : (l.rtake n).reverse = l.reverse.take n := by
    rw [List.rtake_eq_reverse_take_reverse, List.reverse_reverse]
  have h2 : ∀ x : List α, x.rtake n = (x.reverse.take n).reverse := by
    intro x
    rw [List.rtake_eq_reverse_take_reverse]
  rw [h2 (l.rtake n ++ m), h2 (l ++ m)]
  rw [List.reverse_append, List.reverse_append, h1, take_append_take]

/-- `rtake` of the empty list. -/
lemma rtake_of_nil {α : Type} (n : Nat) : (([] : List α)).rtake n = [] := by
  simp [List.rtake]

/-- The `ADD_BATCH` reducer case keeps exactly the last `MAX_BUFFER_SIZE`
elements of the appended sequence. -/
lemma reducer_addBatch_records {α σ φ : Type} (now : Nat) (s : BufferState α σ φ)
    (p : List α) :
    (dataBufferReducer now s (BufferAction.addBatch p)).records
      = (s.records ++ p).rtake MAX_BUFFER_SIZE := by
  have hshow : (dataBufferReducer now s (BufferAction.addBatch p)).records
      = if MAX_BUFFER_SIZE < (s.records ++ p).length then
          (s.records ++ p).drop ((s.records ++ p).length - MAX_BUFFER_SIZE)
        else s.records ++ p := rfl
  rw [hshow]
  unfold List.rtake
  split
  · rfl
  · rename_i hnl
    have h0 : (s.records ++ p).length - MAX_BUFFER_SIZE = 0 := by omega
    rw [h0, List.drop_zero]

/-- The `ADD_BATCH` reducer case adds the full payload length to the
total, uncapped. -/
lemma reducer_addBatch_total {α σ φ : Type} (now : Nat) (s : BufferState α σ φ)
    (p : List α) :
    (dataBufferReducer now s (BufferAction.addBatch p)).total = s.total + p.length := by
  simp [dataBufferReducer]

/-- `ingestedOf` distributes over trace concatenation. -/
lemma ingestedOf_append {α : Type} (xs ys : List (BufferOp α)) :
    ingestedOf (xs ++ ys) = ingestedOf xs ++ ingestedOf ys := by
  induction xs with
  | nil => simp [ingestedOf]
  | cons op t ih =>
    cases op with
    | add rs => simp [ingestedOf, ih]
    | fire => simp [ingestedOf, ih]

/-- Running a concatenated trace is running the pieces in sequence. -/
lemma runOps_append {α σ φ : Type} (now : Nat) (xs ys : List (BufferOp α)) :
    ∀ h : HookState α σ φ,
      runOps now h (xs ++ ys) = runOps now (runOps now h xs) ys := by
  induction xs with
  | nil => intro h; simp [runOps]
  | cons op t ih =>
    intro h
    cases op with
    | add rs => simp only [List.cons_append, runOps]; exact ih _
    | fire => simp only [List.cons_append, runOps]; exact ih _

/-- Main invariant of the hook trace semantics: the committed store is the
last `MAX_BUFFER_SIZE` elements of a committed portion `D`, the total is
the committed length, the committed portion plus the pending batch is the
whole ingested sequence, and a non-empty pending batch always has a
scheduled commit. -/
lemma runOps_inv {α σ φ : Type} (now : Nat) :
    ∀ (ops : List (BufferOp α)) (h : HookState α σ φ) (C : List α),
      h.state.records = C.rtake MAX_BUFFER_SIZE →
      h.state.total = C.length →
      (h.pendingBatch ≠ [] → h.batchTimeout = true) →
      ∃ D : List α,
        (runOps now h ops).state.records = D.rtake MAX_BUFFER_SIZE ∧
        (runOps now h ops).state.total = D.length ∧
        D ++ (runOps now h ops).pendingBatch = C ++ h.pendingBatch ++ ingestedOf ops ∧
        ((runOps now h ops).pendingBatch ≠ [] → (runOps now h ops).batchTimeout = true) := by
  intro ops
  induction ops with
  | nil =>
    intro h C h1 h2 h3
    exact ⟨C, h1, h2, by simp [runOps, ingestedOf], h3⟩
  | cons op t ih =>
    intro h C h1 h2 h3
    cases op with
    | add rs =>
      obtain ⟨D, hD1, hD2, hD3, hD4⟩ := ih (addRecords rs h) C h1 h2 (by simp [addRecords])
      refine ⟨D, ?_, ?_, ?_, ?_⟩ <;> simp only [runOps]
      · exact hD1
      · exact hD2
      · simp only [addRecords] at hD3
        simp only [ingestedOf]
        simp only [List.append_assoc] at hD3 ⊢
        exact hD3
      · exact hD4
    | fire =>
      by_cases ht : h.batchTimeout
      · by_cases hp : h.pendingBatch.isEmpty
        · have hpl : h.pendingBatch = [] := List.isEmpty_iff.mp hp
          have hfire : batchTimeoutFire now h = { h with batchTimeout := false } := by
            simp [batchTimeoutFire, ht, hp]
          obtain ⟨D, hD1, hD2, hD3, hD4⟩ := ih { h with batchTimeout := false } C h1 h2
            (by simp [hpl])
          refine ⟨D, ?_, ?_, ?_, ?_⟩ <;> simp only [runOps, hfire]
          · exact hD1
          · exact hD2
          · simp only [ingestedOf]
            exact hD3
          · exact hD4
        · have hfire : batchTimeoutFire now h =
              { state := dataBufferReducer now h.state (BufferAction.addBatch h.pendingBatch),
                pendingBatch := [], batchTimeout := false } := by
            simp [batchTimeoutFire, ht, hp]
          have hrec : (dataBufferReducer now h.state
              (BufferAction.addBatch h.pendingBatch)).records
                = (C ++ h.pendingBatch).rtake MAX_BUFFER_SIZE := by
            rw [reducer_addBatch_records, h1, rtake_append_rtake]
          have htot : (dataBufferReducer now h.state
              (BufferAction.addBatch h.pendingBatch)).total
                = (C ++ h.pendingBatch).length := by
            rw [reducer_addBatch_total, h2]
            simp
          obtain ⟨D, hD1, hD2, hD3, hD4⟩ := ih
            { state := dataBufferReducer now h.state (BufferAction.addBatch h.pendingBatch),
              pendingBatch := [], batchTimeout := false }
            (C ++ h.pendingBatch) hrec htot (by simp)
          refine ⟨D, ?_, ?_, ?_, ?_⟩ <;> simp only [runOps, hfire]
          · exact hD1
          · exact hD2
          · simp only [ingestedOf]
            simp only [List.append_assoc, List.append_nil] at hD3 ⊢
            exact hD3
          · exact hD4
      · have hpl : h.pendingBatch = [] := by
          by_contra hne
          exact absurd (h3 hne) (by simpa using ht)
        have hfire : batchTimeoutFire now h = h := by
          simp [batchTimeoutFire, ht]
        obtain ⟨D, hD1, hD2, hD3, hD4⟩ := ih h C h1 h2 h3
        refine ⟨D, ?_, ?_, ?_, ?_⟩ <;> simp only [runOps, hfire]
        · exact hD1
        · exact hD2
        · simp only [ingestedOf]
          exact hD3
        · exact hD4

end DataBuffer

namespace WSClient

/-- Once the machine is in `failed` with no pending timer and the attempt
counter exhausted, close and timer events can never leave that
configuration. -/
lemma applyWSEvents_failed_stable :
    ∀ (evs : List WSEvent) (s : WSClientState),
      s.status = ConnStatus.failed → s.reconnectTimer = false →
      MAX_RECONNECT_ATTEMPTS ≤ s.attempts →
      (applyWSEvents s evs).status = ConnStatus.failed ∧
      (applyWSEvents s evs).reconnectTimer = false := by
  intro evs
  induction evs with
  | nil => intro s h1 h2 _; exact ⟨h1, h2⟩
  | cons e t ih =>
    intro s h1 h2 h3
    cases e with
    | closeEvt =>
      have hnl : ¬ s.attempts < MAX_RECONNECT_ATTEMPTS := Nat.not_lt.mpr h3
      simp only [applyWSEvents]
      exact ih (onClose s) (by simp [onClose, hnl]) (by simp [onClose, hnl, h2])
        (by simp [onClose, hnl]; exact h3)
    | timerEvt =>
      simp only [applyWSEvents, reconnectTimerFire, h2]
      exact ih s h1 h2 h3

end WSClient

section Theorems

open RateLimiter DataGenerator WSClient DataBuffer

/-- C1 counterexample: on a running generator with a non-empty buffer, a
failing persistence write (`persistOk = false`) makes `processBuffer`
return without invoking `broadcast` at all — the claim that the batch is
still broadcast is false at this input. -/
theorem processBuffer_persistFail_counterexample :
    genEx.buffer ≠ [] ∧
    (processBuffer false genEx).2 = none ∧
    ¬((processBuffer false genEx).2 =
        some { data := genEx.buffer, total := genEx.totalGenerated }) := by
  refine ⟨by decide, by decide, by decide⟩

/-- C1 amended: when the persistence write of a flushed batch fails, the
error is caught locally (`processBuffer` returns normally), the batch is
dropped — `broadcast` is NOT called — the buffer is cleared, and
generation continues uninterrupted (`isRunning`, the interval,
`totalGenerated` and the client set are untouched). -/
theorem processBuffer_persistFail_amended :
    ∀ s : GenState,
      processBuffer false s = ({ s with buffer := [] }, none) ∧
      (processBuffer false s).1.isRunning = s.isRunning ∧
      (processBuffer false s).1.intervalMs = s.intervalMs ∧
      (processBuffer false s).1.totalGenerated = s.totalGenerated ∧
      (processBuffer false s).1.wsClients = s.wsClients ∧
      (processBuffer false s).2 = none := by
  intro s
  have hmain : processBuffer false s = ({ s with buffer := [] }, none) := by
    cases s with
    | mk rate batchSize isRunning intervalMs buffer totalGenerated wsClients =>
      cases buffer <;> simp [processBuffer]
  refine ⟨hmain, ?_, ?_, ?_, ?_, ?_⟩ <;> rw [hmain]

/-- C2 counterexample: broadcasting to a set containing one closed and two
open subscribers delivers to the two open ones, but the closed subscriber
is NOT removed from the set — it is merely skipped — so the claim that
every non-open subscriber is removed during the pass is false here. -/
theorem broadcast_closed_kept_counterexample :
    (broadcastClients [Client.mk 0 0 true, Client.mk 1 1 true, Client.mk 2 1 true]).2
        = [1, 2] ∧
    (broadcastClients [Client.mk 0 0 true, Client.mk 1 1 true, Client.mk 2 1 true]).1
        = [Client.mk 0 0 true, Client.mk 1 1 true, Client.mk 2 1 true] ∧
    Client.mk 0 0 true ∈
      (broadcastClients [Client.mk 0 0 true, Client.mk 1 1 true, Client.mk 2 1 true]).1 ∧
    ¬((broadcastClients [Client.mk 0 0 true, Client.mk 1 1 true, Client.mk 2 1 true]).1
        = [Client.mk 1 1 true, Client.mk 2 1 true]) := by
  refine ⟨by decide, by decide, by decide, by decide⟩

/-- C2 amended: `broadcast` delivers the message exactly to the open
subscribers whose send succeeds; the subscribers removed during the pass
are exactly the open ones whose send fails, while non-open subscribers are
skipped but remain in the set; the fan-out is a total function of the set
(a bad subscriber never makes it raise to the caller). -/
theorem broadcast_amended :
    ∀ cs : List Client,
      (broadcastClients cs).2 =
        (cs.filter (fun c => decide (c.readyState = 1) && c.sendOk)).map
          (fun c => c.id) ∧
      (broadcastClients cs).1 =
        cs.filter (fun c => !(decide (c.readyState = 1) && !c.sendOk)) := by
  intro cs
  induction cs with
  | nil => simp [broadcastClients]
  | cons c cs ih =>
    by_cases h1 : c.readyState = 1
    · by_cases h2 : c.sendOk
      · simp [broadcastClients, h1, h2, ih.1, ih.2]
      · simp [broadcastClients, h1, h2, ih.1, ih.2]
    · simp [broadcastClients, h1, ih.1, ih.2]

/-- C5 counterexample: after exactly `MAX_RECONNECT_ATTEMPTS = 10`
consecutive close events with no successful open in between, the client is
in `reconnecting` (not `failed`) and a reconnect timer IS scheduled — the
claim that ten closes suffice to reach `failed` is false on this run. -/
theorem ws_ten_closes_counterexample :
    (onClose (closeCycle^[9] (connectCall false initialWSState))).status
        = ConnStatus.reconnecting ∧
    (onClose (closeCycle^[9] (connectCall false initialWSState))).reconnectTimer
        = true ∧
    ¬((onClose (closeCycle^[9] (connectCall false initialWSState))).status
        = ConnStatus.failed) := by
  refine ⟨by decide, by decide, by decide⟩

/-- C5 amended: after `MAX_RECONNECT_ATTEMPTS + 1 = 11` consecutive close
events with no successful open in between (the initial failure plus ten
failed reconnect attempts), the status is `failed`, no reconnect timer is
pending, and no sequence of further close/timer events ever schedules a
reconnect timer or leaves `failed` — resuming requires an explicit
external reconnect call. -/
theorem ws_failed_after_eleven_closes :
    (onClose (closeCycle^[10] (connectCall false initialWSState))).status
        = ConnStatus.failed ∧
    (onClose (closeCycle^[10] (connectCall false initialWSState))).reconnectTimer
        = false ∧
    ∀ evs : List WSEvent,
      (applyWSEvents
          (onClose (closeCycle^[10] (connectCall false initialWSState))) evs).status
          = ConnStatus.failed ∧
      (applyWSEvents
          (onClose (closeCycle^[10] (connectCall false initialWSState))) evs).reconnectTimer
          = false := by
  refine ⟨by decide, by decide, fun evs => ?_⟩
  have h := applyWSEvents_failed_stable evs
    (onClose (closeCycle^[10] (connectCall false initialWSState)))
    (by decide) (by decide) (by decide)
  exact ⟨h.1, h.2⟩

/-- C3 counterexample: with `windowMs = 1000` and quota `M = 2`, the three
calls at timestamps 0, 500 and 999 all lie inside one window (every
timestamp is below `0 + windowMs`), yet all three are allowed — the
mid-window refill at t = 500 grants a fresh token, so "at most M allowed
inside one window" is false as stated. -/
theorem consume_window_counterexample :
    (∀ t ∈ [0, 500, 999], t < 0 + 1000) ∧
    allowedCount (consumeSeq { windowMs := 1000, maxRequests := 2 } none
        [0, 500, 999]).2 = 3 ∧
    ¬(allowedCount (consumeSeq { windowMs := 1000, maxRequests := 2 } none
        [0, 500, 999]).2
      ≤ ({ windowMs := 1000, maxRequests := 2 } : RateLimiter.Config).maxRequests) := by
  refine ⟨by decide, by decide, by decide⟩

/-- C3 amended: across N consume calls all made at one timestamp (so the
lazy refill never fires between them), at most `maxRequests` are allowed
(for a positive quota); any denied call reports `remaining = 0` and
`resetTime` equal to the refilled bucket's `lastRefill + windowMs`; and in
the concrete `maxRequests = 5` case, five consecutive calls are allowed
with remaining 4, 3, 2, 1, 0, while the sixth is denied with
`resetTime = lastRefill + 1000`. -/
theorem consume_quota_amended :
    (∀ (cfg : RateLimiter.Config) (t n : Nat), 0 < cfg.maxRequests →
        allowedCount (consumeSeq cfg none (List.replicate n t)).2 ≤ cfg.maxRequests) ∧
    (∀ (cfg : RateLimiter.Config) (now : Nat) (b : Bucket),
        (refillTokens cfg now b).tokens ≤ 0 →
        (consume cfg now (some b)).2 =
          { allowed := false, remaining := 0,
            resetTime := some ((refillTokens cfg now b).lastRefill + cfg.windowMs) }) ∧
    ((consumeSeq { windowMs := 1000, maxRequests := 5 } none (List.replicate 6 0)).2.map
        (fun r => (r.allowed, r.remaining)) =
      [(true, 4), (true, 3), (true, 2), (true, 1), (true, 0), (false, 0)]) ∧
    (((consumeSeq { windowMs := 1000, maxRequests := 5 } none
        (List.replicate 6 0)).2.getLast?).map (fun r => r.resetTime)
      = some (some 1000)) := by
  refine ⟨?_, ?_, by decide, by decide⟩
  · intro cfg t n hM
    cases n with
    | zero => simp [consumeSeq, allowedCount]
    | succ n =>
      have hc : consume cfg t none =
          (some { tokens := (cfg.maxRequests : Int) - 1, lastRefill := t, firstRequest := t },
            { allowed := true, remaining := (cfg.maxRequests : Int) - 1,
              resetTime := none }) := by
        simp [consume]
      have hrest : allowedCount (consumeSeq cfg
          (some { tokens := (cfg.maxRequests : Int) - 1, lastRefill := t, firstRequest := t })
          (List.replicate n t)).2 ≤ ((cfg.maxRequests : Int) - 1).toNat :=
        consumeSeq_same_time_le cfg t n _ rfl
      simp only [List.replicate_succ, consumeSeq, hc, allowedCount_cons]
      simp
      omega
  · intro cfg now b h
    have hnl : ¬ 0 < (refillTokens cfg now b).tokens := by omega
    simp [consume, hnl]

/-- C3 witness: the amended theorem applied at concrete inputs — quota 3
at a single timestamp bounds the allowed count, and a drained bucket is
denied with the stated reset time. -/
theorem consume_quota_amended_witness :
    0 < ({ windowMs := 1000, maxRequests := 3 } : RateLimiter.Config).maxRequests ∧
    allowedCount (consumeSeq { windowMs := 1000, maxRequests := 3 } none
        (List.replicate 5 0)).2 ≤ 3 ∧
    (refillTokens { windowMs := 1000, maxRequests := 1 } 0
        { tokens := 0, lastRefill := 0, firstRequest := 0 }).tokens ≤ 0 ∧
    (consume { windowMs := 1000, maxRequests := 1 } 0
        (some { tokens := 0, lastRefill := 0, firstRequest := 0 })).2 =
      { allowed := false, remaining := 0, resetTime := some 1000 } :=
  ⟨by decide, consume_quota_amended.1 _ 0 5 (by decide), by decide,
    consume_quota_amended.2.1 _ 0 { tokens := 0, lastRefill := 0, firstRequest := 0 }
      (by decide)⟩

/-- C7: the lazy refill is the identity when the computed increment is
zero (so `lastRefill` does not drift), otherwise it adds exactly
`floor(elapsed / windowMs * maxRequests)` tokens capped at `maxRequests`
and advances `lastRefill` to `now`; the capped result never exceeds
`maxRequests`, and once a full window has elapsed with no consumption the
bucket refills to exactly `maxRequests`. -/
theorem refillTokens_spec :
    ∀ (cfg : RateLimiter.Config) (now : Nat) (b : Bucket),
      (tokensToAdd cfg now b = 0 → refillTokens cfg now b = b) ∧
      (0 < tokensToAdd cfg now b →
        refillTokens cfg now b =
          { b with
              tokens := min (cfg.maxRequests : Int)
                (b.tokens + (tokensToAdd cfg now b : Int)),
              lastRefill := now }) ∧
      (b.tokens ≤ (cfg.maxRequests : Int) →
        (refillTokens cfg now b).tokens ≤ (cfg.maxRequests : Int)) ∧
      (0 < cfg.windowMs → 0 < cfg.maxRequests → 0 ≤ b.tokens →
        b.lastRefill + cfg.windowMs ≤ now →
        (refillTokens cfg now b).tokens = (cfg.maxRequests : Int)) := by
  intro cfg now b
  refine ⟨?_, ?_, ?_, ?_⟩
  · intro h; simp [refillTokens, h]
  · intro h; simp [refillTokens, h]
  · intro h
    unfold refillTokens
    split
    · simp
    · exact h
  · intro hW hM htok hnow
    have helapsed : cfg.windowMs ≤ now - b.lastRefill := by omega
    have hadd : cfg.maxRequests ≤ tokensToAdd cfg now b := by
      unfold tokensToAdd
      rw [Nat.le_div_iff_mul_le hW]
      calc cfg.maxRequests * cfg.windowMs
          = cfg.windowMs * cfg.maxRequests := Nat.mul_comm _ _
        _ ≤ (now - b.lastRefill) * cfg.maxRequests :=
            Nat.mul_le_mul_right _ helapsed
    have hpos : 0 < tokensToAdd cfg now b := lt_of_lt_of_le hM hadd
    have hle : (cfg.maxRequests : Int) ≤ b.tokens + (tokensToAdd cfg now b : Int) := by
      omega
    unfold refillTokens
    rw [if_pos hpos]
    simp [min_eq_left hle]

/-- C7 witness: the four components of the refill theorem applied at
concrete buckets — a sub-threshold elapse is a no-op, a mid-window elapse
adds the capped floor increment, the cap holds, and a full window refills
to the quota. -/
theorem refillTokens_spec_witness :
    (tokensToAdd { windowMs := 1000, maxRequests := 5 } 100
        { tokens := 3, lastRefill := 0, firstRequest := 0 } = 0 ∧
      refillTokens { windowMs := 1000, maxRequests := 5 } 100
        { tokens := 3, lastRefill := 0, firstRequest := 0 }
        = { tokens := 3, lastRefill := 0, firstRequest := 0 }) ∧
    (0 < tokensToAdd { windowMs := 1000, maxRequests := 5 } 300
        { tokens := 3, lastRefill := 0, firstRequest := 0 } ∧
      refillTokens { windowMs := 1000, maxRequests := 5 } 300
          { tokens := 3, lastRefill := 0, firstRequest := 0 }
        = { tokens := min (5 : Int)
              (3 + (tokensToAdd { windowMs := 1000, maxRequests := 5 } 300
                { tokens := 3, lastRefill := 0, firstRequest := 0 } : Int)),
            lastRefill := 300, firstRequest := 0 }) ∧
    ((3 : Int) ≤ 5 ∧
      (refillTokens { windowMs := 1000, maxRequests := 5 } 300
        { tokens := 3, lastRefill := 0, firstRequest := 0 }).tokens ≤ 5) ∧
    (refillTokens { windowMs := 1000, maxRequests := 5 } 1000
        { tokens := 2, lastRefill := 0, firstRequest := 0 }).tokens = 5 :=
  ⟨⟨by decide, (refillTokens_spec _ 100 _).1 (by decide)⟩,
    ⟨by decide, (refillTokens_spec _ 300 _).2.1 (by decide)⟩,
    ⟨by decide, (refillTokens_spec _ 300 _).2.2.1 (by decide)⟩,
    (refillTokens_spec _ 1000 _).2.2.2 (by decide) (by decide) (by decide) (by decide)⟩

/-- C6: a tick below the threshold never flushes and just grows the
pending buffer; a tick that brings the pending length to exactly
`batchSize` hands precisely that buffer to `processBuffer` and clears it;
the sub-threshold invariant is preserved by every tick; and `stop` on a
running producer with a non-empty sub-threshold remainder performs exactly
one final flush of that remainder while halting the interval. -/
theorem producer_flush_spec :
    (∀ (pOk : Bool) (now : Nat) (rc rv rs : ℚ) (s : GenState),
        s.buffer.length + 1 < s.batchSize →
          (tick pOk now rc rv rs s).2.1 = none ∧
          (tick pOk now rc rv rs s).1.buffer
            = s.buffer ++ [generateRecord now s.totalGenerated s.batchSize rc rv rs] ∧
          (tick pOk now rc rv rs s).2.2 = none) ∧
    (∀ (pOk : Bool) (now : Nat) (rc rv rs : ℚ) (s : GenState),
        s.buffer.length + 1 = s.batchSize →
          (tick pOk now rc rv rs s).2.1
            = some (s.buffer ++ [generateRecord now s.totalGenerated s.batchSize rc rv rs]) ∧
          (tick pOk now rc rv rs s).1.buffer = []) ∧
    (∀ (pOk : Bool) (now : Nat) (rc rv rs : ℚ) (s : GenState),
        s.buffer.length < s.batchSize →
          (tick pOk now rc rv rs s).1.buffer.length < s.batchSize ∧
          (tick pOk now rc rv rs s).1.batchSize = s.batchSize) ∧
    (∀ (pOk : Bool) (s : GenState), s.isRunning = true → s.buffer ≠ [] →
        (stop pOk s).2.1 = some s.buffer ∧
        (stop pOk s).1.buffer = [] ∧
        (stop pOk s).1.isRunning = false ∧
        (stop pOk s).1.intervalMs = none) := by
  have hbs : ∀ (pOk : Bool) (now : Nat) (rc rv rs : ℚ) (s : GenState),
      (tick pOk now rc rv rs s).1.batchSize = s.batchSize := by
    intro pOk now rc rv rs s
    rcases Nat.lt_or_ge (s.buffer.length + 1) s.batchSize with hlt | hge
    · have hcond : ¬ (s.batchSize ≤ s.buffer.length + 1) := by omega
      simp [tick, hcond]
    · have hne : ¬ (s.buffer ++
          [generateRecord now s.totalGenerated s.batchSize rc rv rs]).isEmpty := by
        simp
      cases pOk <;> simp [tick, hge, processBuffer, hne]
  have hbelow : ∀ (pOk : Bool) (now : Nat) (rc rv rs : ℚ) (s : GenState),
      s.buffer.length + 1 < s.batchSize →
        (tick pOk now rc rv rs s).2.1 = none ∧
        (tick pOk now rc rv rs s).1.buffer
          = s.buffer ++ [generateRecord now s.totalGenerated s.batchSize rc rv rs] ∧
        (tick pOk now rc rv rs s).2.2 = none := by
    intro pOk now rc rv rs s h
    have hcond : ¬ (s.batchSize ≤ s.buffer.length + 1) := by omega
    simp [tick, hcond]
  have hat : ∀ (pOk : Bool) (now : Nat) (rc rv rs : ℚ) (s : GenState),
      s.buffer.length + 1 = s.batchSize →
        (tick pOk now rc rv rs s).2.1
          = some (s.buffer ++ [generateRecord now s.totalGenerated s.batchSize rc rv rs]) ∧
        (tick pOk now rc rv rs s).1.buffer = [] := by
    intro pOk now rc rv rs s h
    have hcond : s.batchSize ≤ s.buffer.length + 1 := by omega
    have hne : ¬ (s.buffer ++
        [generateRecord now s.totalGenerated s.batchSize rc rv rs]).isEmpty := by
      simp
    cases pOk <;> simp [tick, hcond, processBuffer, hne]
  refine ⟨hbelow, hat, ?_, ?_⟩
  · intro pOk now rc rv rs s h
    refine ⟨?_, hbs pOk now rc rv rs s⟩
    rcases Nat.lt_or_ge (s.buffer.length + 1) s.batchSize with hlt | hge
    · have hb := hbelow pOk now rc rv rs s hlt
      rw [hb.2.1]
      simp
      omega
    · have heq : s.buffer.length + 1 = s.batchSize := by omega
      have hb := hat pOk now rc rv rs s heq
      rw [hb.2]
      simp
      omega
  · intro pOk s hrun hne
    have hrun2 : (!s.isRunning) = false := by simp [hrun]
    have hne2 : s.buffer.isEmpty = false := by
      cases hb : s.buffer with
      | nil => exact absurd hb hne
      | cons a t => simp
    cases pOk <;> simp [stop, hrun2, hne2, processBuffer]

/-- C6 witness: the flush theorem applied at concrete producer states —
no flush below the threshold, a flush exactly at it, and a final flush on
stop. -/
theorem producer_flush_spec_witness :
    (genEx.buffer.length + 1 < genEx.batchSize ∧
      (tick true 0 0 0 0 genEx).2.1 = none) ∧
    ({ genEx with batchSize := 2 }.buffer.length + 1 = 2 ∧
      (tick true 0 0 0 0 { genEx with batchSize := 2 }).1.buffer = []) ∧
    (genEx.isRunning = true ∧ genEx.buffer ≠ [] ∧
      (stop true genEx).2.1 = some genEx.buffer ∧
      (stop true genEx).1.isRunning = false) :=
  ⟨⟨by decide, (producer_flush_spec.1 true 0 0 0 0 genEx (by decide)).1⟩,
    ⟨by decide, (producer_flush_spec.2.1 true 0 0 0 0 { genEx with batchSize := 2 }
      (by decide)).2⟩,
    by decide, by decide,
    (producer_flush_spec.2.2.2 true genEx (by decide) (by decide)).1,
    (producer_flush_spec.2.2.2 true genEx (by decide) (by decide)).2.2.1⟩

/-- C8: `setRate` is stop-then-restart — it leaves the running flag as it
was, installs the new rate and (when the producer was running) the new
interval `1000 / newRate`, never changes `totalGenerated` or `batchSize`,
and every buffered-but-unflushed record is preserved: it either stays in
the pending buffer or is part of the single batch flushed by the embedded
stop; on a stopped producer only the rate changes. -/
theorem setRate_spec :
    ∀ (pOk : Bool) (newRate : ℚ) (s : GenState),
      (setRate pOk newRate s).1.isRunning = s.isRunning ∧
      (setRate pOk newRate s).1.rate = newRate ∧
      (s.isRunning = true → (setRate pOk newRate s).1.intervalMs = some (1000 / newRate)) ∧
      (setRate pOk newRate s).1.totalGenerated = s.totalGenerated ∧
      (setRate pOk newRate s).1.batchSize = s.batchSize ∧
      (∀ r ∈ s.buffer, r ∈ (setRate pOk newRate s).1.buffer ∨
          ∃ b, (setRate pOk newRate s).2.1 = some b ∧ r ∈ b) ∧
      (s.isRunning = false →
        (setRate pOk newRate s).1.buffer = s.buffer ∧
        (setRate pOk newRate s).2.1 = none) := by
  intro pOk newRate s
  cases hrun : s.isRunning with
  | false =>
    have hmain : setRate pOk newRate s = ({ s with rate := newRate }, none, none) := by
      simp [setRate, hrun]
    rw [hmain]
    refine ⟨by simp [hrun], by simp, ?_, by simp, by simp, ?_, by simp⟩
    · intro h; exact absurd h (by simp)
    · intro r hr
      left
      exact hr
  | true =>
    have hrun2 : (!s.isRunning) = false := by simp [hrun]
    cases hbuf : s.buffer with
    | nil =>
      have hstop : stop pOk s =
          ({ s with isRunning := false, intervalMs := none }, none, none) := by
        simp [stop, hrun2, hbuf]
      have hmain : setRate pOk newRate s =
          ({ s with rate := newRate, isRunning := true,
                    intervalMs := some (1000 / newRate) },
            none, none) := by
        simp [setRate, hrun, hstop, start]
      rw [hmain]
      refine ⟨by simp [hrun], by simp, by simp, by simp, by simp, ?_, ?_⟩
      · intro r hr
        simp at hr
      · intro h; exact absurd h (by simp)
    | cons a t =>
      have hne2 : s.buffer.isEmpty = false := by rw [hbuf]; simp
      have hfields :
          (processBuffer pOk { s with isRunning := false, intervalMs := none }).1.buffer
            = [] ∧
          (processBuffer pOk { s with isRunning := false, intervalMs := none }).1.rate
            = s.rate ∧
          (processBuffer pOk { s with isRunning := false, intervalMs := none }).1.isRunning
            = false ∧
          (processBuffer pOk { s with isRunning := false, intervalMs := none }).1.totalGenerated
            = s.totalGenerated ∧
          (processBuffer pOk { s with isRunning := false, intervalMs := none }).1.batchSize
            = s.batchSize := by
        cases pOk <;> simp [processBuffer, hne2]
      have hmain : setRate pOk newRate s =
          (start { (processBuffer pOk { s with isRunning := false, intervalMs := none }).1
                    with rate := newRate },
            some s.buffer,
            (processBuffer pOk { s with isRunning := false, intervalMs := none }).2) := by
        simp [setRate, hrun, stop, hrun2, hne2]
      have hstart : start { (processBuffer pOk
              { s with isRunning := false, intervalMs := none }).1 with rate := newRate } =
          { (processBuffer pOk { s with isRunning := false, intervalMs := none }).1 with
              rate := newRate, isRunning := true, intervalMs := some (1000 / newRate) } := by
        unfold start
        rw [if_neg (by simp [hfields.2.2.1])]
      rw [hmain, hstart]
      refine ⟨by simp [hrun], by simp, by simp, by simp [hfields.2.2.2.1],
        by simp [hfields.2.2.2.2], ?_, ?_⟩
      · intro r hr
        right
        refine ⟨s.buffer, rfl, ?_⟩
        rw [hbuf]
        exact hr
      · intro h; exact absurd h (by simp)

/-- C8 witness: the setRate theorem applied at a running state (new
interval, preserved total) and at a stopped state (buffer untouched). -/
theorem setRate_spec_witness :
    (genEx.isRunning = true ∧
      (setRate true 25 genEx).1.intervalMs = some (1000 / 25) ∧
      (setRate true 25 genEx).1.totalGenerated = genEx.totalGenerated) ∧
    ({ genEx with isRunning := false }.isRunning = false ∧
      (setRate true 25 { genEx with isRunning := false }).1.buffer
        = { genEx with isRunning := false }.buffer) :=
  ⟨⟨rfl, (setRate_spec true 25 genEx).2.2.1 rfl, (setRate_spec true 25 genEx).2.2.2.1⟩,
    ⟨rfl, ((setRate_spec true 25 { genEx with isRunning := false }).2.2.2.2.2.2 rfl).1⟩⟩

/-- C9: for random draws in `[0, 1)`, every generated record's value lies
in `[0, 1000]` (far inside the declared 0–10000 bound), with the
category-dependent sub-ranges — sensor in `[20, 80]`, metric in
`[0, 1000]`, event an integer in `[0, 99]`, alert in `[0, 10]`, system in
`[50, 100]` — the value is an integer number of hundredths (two-decimal
rounding), and the category always comes from the fixed five-element
enumeration. -/
theorem generateRecord_value_bounds :
    ∀ (now tg bs : Nat) (rcat rval rsrc : ℚ), 0 ≤ rval → rval < 1 →
      ((0 : ℚ) ≤ (generateRecord now tg bs rcat rval rsrc).value ∧
        (generateRecord now tg bs rcat rval rsrc).value ≤ 1000) ∧
      ((generateRecord now tg bs rcat rval rsrc).category = Category.sensor →
        (20 : ℚ) ≤ (generateRecord now tg bs rcat rval rsrc).value ∧
        (generateRecord now tg bs rcat rval rsrc).value ≤ 80) ∧
      ((generateRecord now tg bs rcat rval rsrc).category = Category.metric →
        (0 : ℚ) ≤ (generateRecord now tg bs rcat rval rsrc).value ∧
        (generateRecord now tg bs rcat rval rsrc).value ≤ 1000) ∧
      ((generateRecord now tg bs rcat rval rsrc).category = Category.event →
        ∃ k : ℤ, (generateRecord now tg bs rcat rval rsrc).value = (k : ℚ) ∧
          0 ≤ k ∧ k ≤ 99) ∧
      ((generateRecord now tg bs rcat rval rsrc).category = Category.alert →
        (0 : ℚ) ≤ (generateRecord now tg bs rcat rval rsrc).value ∧
        (generateRecord now tg bs rcat rval rsrc).value ≤ 10) ∧
      ((generateRecord now tg bs rcat rval rsrc).category = Category.system →
        (50 : ℚ) ≤ (generateRecord now tg bs rcat rval rsrc).value ∧
        (generateRecord now tg bs rcat rval rsrc).value ≤ 100) ∧
      (∃ m : ℤ, (generateRecord now tg bs rcat rval rsrc).value = (m : ℚ) / 100) ∧
      (generateRecord now tg bs rcat rval rsrc).category ∈ categories := by
  intro now tg bs rcat rval rsrc h0 h1
  have key := round2_rawValue_cases (pickCategory rcat) h0 h1
  exact ⟨key.1, key.2.1, key.2.2.1, key.2.2.2.1, key.2.2.2.2.1, key.2.2.2.2.2,
    ⟨jsRound (rawValue (pickCategory rcat) rval * 100), rfl⟩, mem_categories _⟩

/-- C9 witness: the bounds theorem applied at the concrete draw 1/2. -/
theorem generateRecord_value_bounds_witness :
    (0 : ℚ) ≤ 1 / 2 ∧ (1 : ℚ) / 2 < 1 ∧
    ((0 : ℚ) ≤ (generateRecord 0 0 1 0 (1 / 2) 0).value ∧
      (generateRecord 0 0 1 0 (1 / 2) 0).value ≤ 1000) :=
  ⟨by norm_num, by norm_num,
    (generateRecord_value_bounds 0 0 1 0 (1 / 2) 0 (by norm_num) (by norm_num)).1⟩

/-- C4: for any ingestion trace whose records number more than the
capacity 5000, once the final scheduled commit fires the committed store
holds exactly 5000 records — the most recent 5000 ingested records in
their original relative order — the pending list is empty, and the total
counter equals the full ingested count, uncapped. -/
theorem clientBuffer_capacity :
    ∀ {α σ φ : Type} (now lu : Nat) (ops : List (BufferOp α)),
      MAX_BUFFER_SIZE < (ingestedOf ops).length →
      (finalAfter now lu ops : HookState α σ φ).state.records
        = (ingestedOf ops).drop ((ingestedOf ops).length - MAX_BUFFER_SIZE) ∧
      (finalAfter now lu ops : HookState α σ φ).state.records.length = MAX_BUFFER_SIZE ∧
      (finalAfter now lu ops : HookState α σ φ).state.total = (ingestedOf ops).length ∧
      (finalAfter now lu ops : HookState α σ φ).pendingBatch = [] := by
  intro α σ φ now lu ops hK
  have h0rec : (initialHook lu : HookState α σ φ).state.records
      = ([] : List α).rtake MAX_BUFFER_SIZE := by
    simp [initialHook, initialBufferState, rtake_of_nil]
  have h0tot : (initialHook lu : HookState α σ φ).state.total = ([] : List α).length := by
    simp [initialHook, initialBufferState]
  obtain ⟨D, hD1, hD2, hD3, _⟩ := runOps_inv now (ops ++ [BufferOp.fire])
    (initialHook lu : HookState α σ φ) [] h0rec h0tot (by simp [initialHook])
  obtain ⟨E, _, _, _, hT⟩ := runOps_inv now ops
    (initialHook lu : HookState α σ φ) [] h0rec h0tot (by simp [initialHook])
  have happend : (finalAfter now lu ops : HookState α σ φ)
      = batchTimeoutFire now (runOps now (initialHook lu) ops) := by
    unfold finalAfter
    rw [runOps_append]
    simp [runOps]
  have hpend : (finalAfter now lu ops : HookState α σ φ).pendingBatch = [] := by
    rw [happend]
    by_cases ht : (runOps now (initialHook lu : HookState α σ φ) ops).batchTimeout
    · by_cases hp : (runOps now (initialHook lu : HookState α σ φ) ops).pendingBatch.isEmpty
      · rw [batchTimeoutFire, if_pos ht, if_pos hp]
        exact List.isEmpty_iff.mp hp
      · rw [batchTimeoutFire, if_pos ht, if_neg hp]
    · have hple : (runOps now (initialHook lu : HookState α σ φ) ops).pendingBatch = [] := by
        by_contra hne
        exact absurd (hT hne) (by simpa using ht)
      rw [batchTimeoutFire, if_neg ht]
      exact hple
  have hing : ingestedOf (ops ++ [BufferOp.fire]) = ingestedOf ops := by
    rw [ingestedOf_append]
    simp [ingestedOf]
  have hDfin : D = ingestedOf ops := by
    have h3 := hD3
    rw [show (runOps now (initialHook lu : HookState α σ φ) (ops ++ [BufferOp.fire]))
          = (finalAfter now lu ops : HookState α σ φ) from rfl] at h3
    rw [hpend, hing] at h3
    simpa [initialHook] using h3
  have hfin1 : (finalAfter now lu ops : HookState α σ φ).state.records
      = D.rtake MAX_BUFFER_SIZE := hD1
  have hfin2 : (finalAfter now lu ops : HookState α σ φ).state.total = D.length := hD2
  rw [hDfin] at hfin1 hfin2
  have hrecords : (finalAfter now lu ops : HookState α σ φ).state.records
      = (ingestedOf ops).drop ((ingestedOf ops).length - MAX_BUFFER_SIZE) := by
    rw [hfin1]
    rfl
  refine ⟨hrecords, ?_, hfin2, hpend⟩
  rw [hrecords, List.length_drop]
  omega

/-- C4 witness: the capacity theorem applied to a single 5001-record
ingestion, whose total after the commit equals 5001. -/
theorem clientBuffer_capacity_witness :
    MAX_BUFFER_SIZE < (ingestedOf [BufferOp.add (List.replicate 5001 (0 : Nat))]).length ∧
    (finalAfter 0 0 [BufferOp.add (List.replicate 5001 (0 : Nat))] :
        HookState Nat Nat Nat).state.total
      = (ingestedOf [BufferOp.add (List.replicate 5001 (0 : Nat))]).length := by
  have hlen : MAX_BUFFER_SIZE <
      (ingestedOf [BufferOp.add (List.replicate 5001 (0 : Nat))]).length := by
    show MAX_BUFFER_SIZE < (List.replicate 5001 (0 : Nat) ++ []).length
    rw [List.append_nil, List.length_replicate]
    decide
  exact ⟨hlen,
    (clientBuffer_capacity 0 0 [BufferOp.add (List.replicate 5001 (0 : Nat))] hlen).2.2.1⟩

/-- C10: `clearData` synchronously resets the committed store, the
never-capped total counter and the stats, discards the pending inbound
list and cancels any scheduled batch commit. -/
theorem clearData_resets :
    ∀ {α σ φ : Type} (now : Nat) (h : HookState α σ φ),
      (clearData now h).state.records = [] ∧
      (clearData now h).state.total = 0 ∧
      (clearData now h).state.stats = none ∧
      (clearData now h).pendingBatch = [] ∧
      (clearData now h).batchTimeout = false := by
  intro α σ φ now h
  simp [clearData, dataBufferReducer]

end Theorems
